import Mathlib

/-!
Verification of the collaborative drawing canvas server
(`src/server/server.js`, which bundles `server.js`, `drawing-state.js`
and `rooms.js`).

The development shallowly embeds the server's data model:

* `DrawingState` mirrors the `DrawingState` class of `drawing-state.js`
  (operations array, `currentIndex` cursor, `maxOperations` cap).
  JavaScript array primitives (`slice`, indexing, `shift`, `push`) are
  modelled by `jsSliceTo`, `jsGet`, `List.drop 1` and `List` append.
  The cursor is an `Int` because the source lets it take the value `-1`.
* `MRoom` / `RoomManagerState` mirror the `Room` objects and the
  `RoomManager` class of `rooms.js`; the JavaScript runtime's queue of
  armed `setTimeout` reclamation callbacks is made explicit as the
  `pendingTimers` field, and a timer firing is the `fireTimer` step.
* `ConnState`, `Intent`, `Event` and `handleMessage` mirror the
  per-connection closure state (`userId`, `roomId`), the decoded inbound
  messages, the outbound events and the `ws.on('message')` dispatch of
  `server.js`.  Nondeterministic platform inputs (`Date.now()`,
  generated ids) are threaded explicitly through an `Env` record, and a
  message that fails `JSON.parse` is represented by the `none` case of
  the `Option Intent` argument.
-/

/-- JavaScript `arr.slice(0, e)` for an `Int` end index: a negative end
index counts from the end of the array, and the result is clamped to
the array bounds. -/
def jsSliceTo (l : List α) (e : Int) : List α :=
  if e < 0 then l.take ((l.length : Int) + e).toNat else l.take e.toNat

/-- JavaScript `arr[i]` for an `Int` index: out-of-range and negative
indices yield `undefined`, modelled as `none`. -/
def jsGet (l : List α) (i : Int) : Option α :=
  if i < 0 then none else l.get? i.toNat

/-- The `DrawingState` class of `drawing-state.js`: an operation
history, a cursor `currentIndex` marking the last active entry, and the
history cap `maxOperations`.  The entry type is a parameter `α`; the
server instantiates it with stamped `Operation` records. -/
structure DrawingState (α : Type) where
  operations : List α
  currentIndex : Int
  maxOperations : Nat
  deriving DecidableEq, Repr

namespace DrawingState

/-- The `DrawingState` constructor: empty history, cursor `-1`,
cap `1000`. -/
def init : DrawingState α := ⟨[], -1, 1000⟩

/-- `addOperation(operation)`: truncate the redo tail
(`slice(0, currentIndex + 1)`), push the new operation, advance the
cursor, and if the history now exceeds `maxOperations`, `shift()` off
the oldest entry and decrement the cursor.  Returns the new state
together with the source's return value `this.operations[this.currentIndex]`.
The timestamp/id stamping the source performs on the pushed object
(`Date.now()`, `generateOperationId()`) is applied by the caller, since
those are nondeterministic platform inputs; see `stampOperation`. -/
def addOperation (s : DrawingState α) (op : α) : DrawingState α × Option α :=
  let ops := (jsSliceTo s.operations (s.currentIndex + 1)) ++ [op]
  let idx := s.currentIndex + 1
  if ops.length > s.maxOperations then
    let s' : DrawingState α := ⟨ops.drop 1, idx - 1, s.maxOperations⟩
    (s', jsGet s'.operations s'.currentIndex)
  else
    let s' : DrawingState α := ⟨ops, idx, s.maxOperations⟩
    (s', jsGet s'.operations s'.currentIndex)

/-- `undo()`: if `currentIndex < 0` return `null`; otherwise return
`operations[currentIndex]` and decrement the cursor. -/
def undo (s : DrawingState α) : DrawingState α × Option α :=
  if s.currentIndex < 0 then (s, none)
  else (⟨s.operations, s.currentIndex - 1, s.maxOperations⟩,
        jsGet s.operations s.currentIndex)

/-- `redo()`: if `currentIndex >= operations.length - 1` return `null`;
otherwise increment the cursor and return `operations[currentIndex]`. -/
def redo (s : DrawingState α) : DrawingState α × Option α :=
  if s.currentIndex ≥ (s.operations.length : Int) - 1 then (s, none)
  else (⟨s.operations, s.currentIndex + 1, s.maxOperations⟩,
        jsGet s.operations (s.currentIndex + 1))

/-- `getActiveOperations()`: `operations.slice(0, currentIndex + 1)`. -/
def getActiveOperations (s : DrawingState α) : List α :=
  jsSliceTo s.operations (s.currentIndex + 1)

/-- `getFullState()`: the snapshot sent to newly joined clients. -/
def getFullState (s : DrawingState α) : List α × Int :=
  (s.getActiveOperations, s.currentIndex)

/-- `clear()`: empty the history and reset the cursor to `-1`. -/
def clear (s : DrawingState α) : DrawingState α :=
  ⟨[], -1, s.maxOperations⟩

/-- `canUndo()`: `currentIndex >= 0`. -/
def canUndo (s : DrawingState α) : Bool :=
  0 ≤ s.currentIndex

/-- `canRedo()`: `currentIndex < operations.length - 1`. -/
def canRedo (s : DrawingState α) : Bool :=
  s.currentIndex < (s.operations.length : Int) - 1

/-- A drawing state reachable from the freshly constructed
`DrawingState` by the class's public mutators. -/
inductive Reachable : DrawingState α → Prop
  | init : Reachable init
  | add (op : α) {s : DrawingState α} : Reachable s → Reachable (s.addOperation op).1
  | undo {s : DrawingState α} : Reachable s → Reachable s.undo.1
  | redo {s : DrawingState α} : Reachable s → Reachable s.redo.1
  | clear {s : DrawingState α} : Reachable s → Reachable s.clear

/-- The cursor invariant stated by the spec's data model: the cursor
ranges over `[-1, operations.length - 1]`. -/
def WF (s : DrawingState α) : Prop :=
  -1 ≤ s.currentIndex ∧ s.currentIndex ≤ (s.operations.length : Int) - 1

/-- Folding a list of appends over a state, keeping only the state. -/
def appendAll (s : DrawingState α) (l : List α) : DrawingState α :=
  l.foldl (fun s op => (s.addOperation op).1) s

/-- The cursor sits on the last entry (no redo tail). -/
def AtEnd (s : DrawingState α) : Prop :=
  s.currentIndex = (s.operations.length : Int) - 1

end DrawingState

/-! ## Server model: rooms, the room manager, and message dispatch -/

/-- A 2-D cursor position. -/
structure Point where
  x : Int
  y : Int
  deriving DecidableEq, Repr

/-- A stamped drawing operation as stored in the log: the draft built in
`handleDraw` (`type`, `userId`, `data`) spread together with the
`timestamp` (`Date.now()`) and generated `id` that `addOperation` stamps
onto it.  `userId` is an `Option` because the connection's `userId`
closure variable is `null` until a join is processed; `data` is the raw
stroke payload, kept opaque. -/
structure Operation where
  type : String
  userId : Option String
  data : String
  timestamp : Nat
  id : String
  deriving DecidableEq, Repr

/-- The roster entry shape produced by `getRoomUsers` (`rooms.js`):
id, name, color and last cursor, without the transport handle. -/
structure UserView where
  id : String
  name : String
  color : String
  cursor : Point
  deriving DecidableEq, Repr

/-- The `{id, name, color}` shape embedded in `init` / `user_joined`
events. -/
structure UserInfo where
  id : String
  name : String
  color : String
  deriving DecidableEq, Repr

/-- A user record held in `room.users` (`rooms.js` `addUser`): the
WebSocket handle is modelled by the user's id as routing target plus
the `wsOpen` flag for `ws.readyState === 1`. -/
structure MUser where
  id : String
  wsOpen : Bool
  name : String
  color : String
  joinedAt : Nat
  cursor : Point
  deriving DecidableEq, Repr

/-- A room object as created by `RoomManager.getRoom`. -/
structure MRoom where
  id : String
  users : List (String × MUser)
  drawingState : DrawingState Operation
  createdAt : Nat
  deriving DecidableEq, Repr

/-- JavaScript `Map.get`: the value at the first (unique) matching key. -/
def lookupAssoc (l : List (String × β)) (k : String) : Option β :=
  match l with
  | [] => none
  | (k0, v) :: rest => if k0 = k then some v else lookupAssoc rest k

/-- JavaScript `Map.set`: overwrite an existing key in place, otherwise
append in insertion order. -/
def setAssoc (l : List (String × β)) (k : String) (v : β) : List (String × β) :=
  match l with
  | [] => [(k, v)]
  | (k0, v0) :: rest =>
    if k0 = k then (k0, v) :: rest else (k0, v0) :: setAssoc rest k v

/-- JavaScript `Map.delete`. -/
def eraseAssoc (l : List (String × β)) (k : String) : List (String × β) :=
  match l with
  | [] => []
  | (k0, v0) :: rest => if k0 = k then rest else (k0, v0) :: eraseAssoc rest k

/-- The `RoomManager` state (`rooms.js`) together with the JavaScript
runtime's queue of armed `setTimeout` reclamation callbacks:
`removeUser` arms one timer per emptying (the source keeps no handle to
it and never cancels one), and `fireTimer` is one callback running. -/
structure RoomManagerState where
  rooms : List (String × MRoom)
  pendingTimers : List String
  deriving DecidableEq, Repr

/-- The freshly constructed `RoomManager`. -/
def RoomManagerState.empty : RoomManagerState := ⟨[], []⟩

/-- `RoomManager.getRoom`: get-or-create.  `now` stands for the
`Date.now()` used for `createdAt` on creation. -/
def getRoom (m : RoomManagerState) (roomId : String) (now : Nat) :
    RoomManagerState × MRoom :=
  match lookupAssoc m.rooms roomId with
  | some room => (m, room)
  | none =>
    let room : MRoom := ⟨roomId, [], DrawingState.init, now⟩
    ({ m with rooms := setAssoc m.rooms roomId room }, room)

/-- `RoomManager.generateUserColor`: fixed palette indexed modulo its
length. -/
def generateUserColor (index : Nat) : String :=
  let colors := ["#FF6B6B", "#4ECDC4", "#45B7D1", "#FFA07A",
                 "#98D8C8", "#F7DC6F", "#BB8FCE", "#85C1E2",
                 "#F8B739", "#52B788", "#E63946", "#457B9D"]
  colors.getD (index % colors.length) ""

/-- `RoomManager.addUser`.  `wsOpen` carries the connection's readiness;
`nameOpt`/`colorOpt` model the client-supplied fields (the source's
falsy-default `userData.name || ...` is modelled as `Option.getD`). -/
def addUser (m : RoomManagerState) (roomId userId : String) (wsOpen : Bool)
    (nameOpt colorOpt : Option String) (now : Nat) :
    RoomManagerState × MUser :=
  let gr := getRoom m roomId now
  let user : MUser :=
    { id := userId, wsOpen := wsOpen
      name := nameOpt.getD ("User " ++ toString (gr.2.users.length + 1))
      color := colorOpt.getD (generateUserColor gr.2.users.length)
      joinedAt := now, cursor := ⟨0, 0⟩ }
  let room := { gr.2 with users := setAssoc gr.2.users userId user }
  ({ gr.1 with rooms := setAssoc gr.1.rooms roomId room }, user)

/-- `RoomManager.removeUser`: delete the user; if the room is now empty,
arm a reclamation `setTimeout` (modelled by appending the room id to the
pending-timer queue — the source holds no handle and cancels nothing). -/
def removeUser (m : RoomManagerState) (roomId userId : String) :
    RoomManagerState :=
  match lookupAssoc m.rooms roomId with
  | none => m
  | some room =>
    let room' := { room with users := eraseAssoc room.users userId }
    let m' := { m with rooms := setAssoc m.rooms roomId room' }
    if room'.users.length = 0 then
      { m' with pendingTimers := m'.pendingTimers ++ [roomId] }
    else m'

/-- One armed reclamation callback firing: it re-reads the room and
deletes it only if it still exists and is still empty (the body of the
`setTimeout` in `removeUser`). -/
def fireTimer (m : RoomManagerState) (roomId : String) : RoomManagerState :=
  let m' := { m with pendingTimers := m.pendingTimers.erase roomId }
  match lookupAssoc m'.rooms roomId with
  | some room =>
    if room.users.length = 0 then { m' with rooms := eraseAssoc m'.rooms roomId }
    else m'
  | none => m'

/-- `RoomManager.getRoomUsers`: the roster without transport handles. -/
def getRoomUsers (m : RoomManagerState) (roomId : String) : List UserView :=
  match lookupAssoc m.rooms roomId with
  | none => []
  | some room => room.users.map (fun p => ⟨p.2.id, p.2.name, p.2.color, p.2.cursor⟩)

/-- `RoomManager.updateUserCursor`: silently no-ops when the room or the
user is unknown (in particular when `userId` is still `null`). -/
def updateUserCursor (m : RoomManagerState) (roomId : String)
    (userIdOpt : Option String) (pos : Point) : RoomManagerState :=
  match lookupAssoc m.rooms roomId with
  | none => m
  | some room =>
    match userIdOpt with
    | none => m
    | some uid =>
      match lookupAssoc room.users uid with
      | none => m
      | some u =>
        let u' := { u with cursor := pos }
        let room' := { room with users := setAssoc room.users uid u' }
        { m with rooms := setAssoc m.rooms roomId room' }

/-- `RoomManager.getStats`. -/
def getStats (m : RoomManagerState) : Nat × Nat :=
  (m.rooms.length, (m.rooms.map (fun p => p.2.users.length)).sum)

/-- Outbound events (`server.js` message payloads, discriminated by their
`type` string). -/
inductive Event where
  | error (message : String)
  | init (userId : String) (user : UserInfo) (users : List UserView)
      (operations : List Operation) (currentIndex : Int)
  | user_joined (user : UserInfo) (users : List UserView)
  | user_left (userId : String) (users : List UserView)
  | draw (operation : Option Operation)
  | cursor (userId : Option String) (pos : Point)
  | undo (operation : Operation) (operations : List Operation)
      (canUndo canRedo : Bool)
  | redo (operation : Operation) (operations : List Operation)
      (canUndo canRedo : Bool)
  | clear
  deriving DecidableEq, Repr

/-- `RoomManager.broadcast`: every user in the room other than the
sender whose socket is open receives the event.  The sender id is an
`Option` because the dispatching connection's `userId` may still be
`null`, which JavaScript's `!==` distinguishes from every string key. -/
def broadcast (m : RoomManagerState) (roomId : String)
    (senderId : Option String) (ev : Event) : List (String × Event) :=
  match lookupAssoc m.rooms roomId with
  | none => []
  | some room =>
    room.users.filterMap
      (fun p => if some p.1 ≠ senderId ∧ p.2.wsOpen = true then some (p.1, ev) else none)

/-- `RoomManager.broadcastAll`: every user with an open socket,
including the sender. -/
def broadcastAll (m : RoomManagerState) (roomId : String) (ev : Event) :
    List (String × Event) :=
  match lookupAssoc m.rooms roomId with
  | none => []
  | some room =>
    room.users.filterMap
      (fun p => if p.2.wsOpen = true then some (p.1, ev) else none)

/-- Decoded inbound messages (`data.type` dispatch in `server.js`);
`other` covers unknown `type` values. -/
inductive Intent where
  | join (userId roomId name color : Option String)
  | draw (data : String)
  | cursor (pos : Point)
  | undo
  | redo
  | clear
  | other (type : String)
  deriving DecidableEq, Repr

/-- The per-connection closure state of `wss.on('connection')`:
the `userId` and `roomId` variables and the socket's readiness. -/
structure ConnState where
  userId : Option String
  roomId : String
  wsOpen : Bool
  deriving DecidableEq, Repr

/-- A fresh connection: `userId = null`, `roomId = 'default'`. -/
def ConnState.initial : ConnState := ⟨none, "default", true⟩

/-- Nondeterministic platform inputs consumed while handling one
message: `Date.now()` and the generated user/operation ids. -/
structure Env where
  now : Nat
  genUserId : String
  genOpId : String
  deriving DecidableEq, Repr

/-- What one message handler emits: events sent directly on the
originating socket (`ws.send`), events routed to room users by id
(broadcasts), and whether the handler closes the connection (the source
never does). -/
structure Output where
  toSender : List Event
  toUsers : List (String × Event)
  closes : Bool
  deriving DecidableEq, Repr

/-- `handleJoin`. -/
def handleJoin (env : Env) (conn : ConnState) (m : RoomManagerState)
    (userIdOpt roomIdOpt nameOpt colorOpt : Option String) :
    ConnState × RoomManagerState × Output :=
  let userId := userIdOpt.getD env.genUserId
  let roomId := roomIdOpt.getD "default"
  let au := addUser m roomId userId conn.wsOpen nameOpt colorOpt env.now
  let gr := getRoom au.1 roomId env.now
  let conn' : ConnState := ⟨some userId, roomId, conn.wsOpen⟩
  let roster := getRoomUsers gr.1 roomId
  let info : UserInfo := ⟨au.2.id, au.2.name, au.2.color⟩
  (conn', gr.1,
    ⟨[Event.init userId info roster gr.2.drawingState.getActiveOperations
        gr.2.drawingState.currentIndex],
     broadcast gr.1 roomId (some userId) (Event.user_joined info roster),
     false⟩)

/-- `handleDraw`: get-or-create the connection's room, append the
stamped operation, broadcast the stored operation to everyone else. -/
def handleDraw (env : Env) (conn : ConnState) (m : RoomManagerState)
    (d : String) : ConnState × RoomManagerState × Output :=
  let gr := getRoom m conn.roomId env.now
  let stamped : Operation :=
    { type := "draw", userId := conn.userId, data := d,
      timestamp := env.now, id := env.genOpId }
  let res := gr.2.drawingState.addOperation stamped
  let m' := { gr.1 with
    rooms := setAssoc gr.1.rooms conn.roomId { gr.2 with drawingState := res.1 } }
  (conn, m',
    ⟨[], broadcast m' conn.roomId conn.userId (Event.draw res.2), false⟩)

/-- `handleCursor`. -/
def handleCursor (conn : ConnState) (m : RoomManagerState) (pos : Point) :
    ConnState × RoomManagerState × Output :=
  let m' := updateUserCursor m conn.roomId conn.userId pos
  (conn, m',
    ⟨[], broadcast m' conn.roomId conn.userId (Event.cursor conn.userId pos), false⟩)

/-- `handleUndo`: undo on the room's log; broadcast to all (sender
included) only when an operation was actually undone. -/
def handleUndo (env : Env) (conn : ConnState) (m : RoomManagerState) :
    ConnState × RoomManagerState × Output :=
  let gr := getRoom m conn.roomId env.now
  let res := gr.2.drawingState.undo
  let m' := { gr.1 with
    rooms := setAssoc gr.1.rooms conn.roomId { gr.2 with drawingState := res.1 } }
  match res.2 with
  | some op =>
    (conn, m',
      ⟨[], broadcastAll m' conn.roomId
        (Event.undo op res.1.getActiveOperations res.1.canUndo res.1.canRedo),
       false⟩)
  | none => (conn, m', ⟨[], [], false⟩)

/-- `handleRedo`: symmetric to `handleUndo`. -/
def handleRedo (env : Env) (conn : ConnState) (m : RoomManagerState) :
    ConnState × RoomManagerState × Output :=
  let gr := getRoom m conn.roomId env.now
  let res := gr.2.drawingState.redo
  let m' := { gr.1 with
    rooms := setAssoc gr.1.rooms conn.roomId { gr.2 with drawingState := res.1 } }
  match res.2 with
  | some op =>
    (conn, m',
      ⟨[], broadcastAll m' conn.roomId
        (Event.redo op res.1.getActiveOperations res.1.canUndo res.1.canRedo),
       false⟩)
  | none => (conn, m', ⟨[], [], false⟩)

/-- `handleClear`: reset the room's log, broadcast `clear` to all. -/
def handleClear (env : Env) (conn : ConnState) (m : RoomManagerState) :
    ConnState × RoomManagerState × Output :=
  let gr := getRoom m conn.roomId env.now
  let m' := { gr.1 with
    rooms := setAssoc gr.1.rooms conn.roomId
      { gr.2 with drawingState := gr.2.drawingState.clear } }
  (conn, m', ⟨[], broadcastAll m' conn.roomId Event.clear, false⟩)

/-- The `ws.on('message')` dispatch: `none` stands for an inbound
message on which `JSON.parse` threw, landing in the `catch` block, which
answers the originating socket with an `error` event; `some intent` is
the `switch` on `data.type`.  Unknown types are logged and ignored.
Totality of this definition reflects that no dispatch path throws. -/
def handleMessage (env : Env) (conn : ConnState) (m : RoomManagerState)
    (msg : Option Intent) : ConnState × RoomManagerState × Output :=
  match msg with
  | none => (conn, m, ⟨[Event.error "Failed to process message"], [], false⟩)
  | some (Intent.join u r n c) => handleJoin env conn m u r n c
  | some (Intent.draw d) => handleDraw env conn m d
  | some (Intent.cursor p) => handleCursor conn m p
  | some Intent.undo => handleUndo env conn m
  | some Intent.redo => handleRedo env conn m
  | some Intent.clear => handleClear env conn m
  | some (Intent.other _) => (conn, m, ⟨[], [], false⟩)

/-- A concrete connected user, used by the scenario states below. -/
def demoUser (uid : String) : MUser :=
  ⟨uid, true, "User 1", "#FF6B6B", 0, ⟨0, 0⟩⟩

/-- Scenario: room `"a"` holds one user `u1`; `u1` leaves (the room
empties, arming a reclamation timer); `u2` joins; `u2` leaves (the room
empties again, arming another timer). -/
def reclaimScenario : RoomManagerState :=
  let m0 : RoomManagerState :=
    ⟨[("a", ⟨"a", [("u1", demoUser "u1")], DrawingState.init, 0⟩)], []⟩
  let m1 := removeUser m0 "a" "u1"
  let m2 := (addUser m1 "a" "u2" true none none 5).1
  removeUser m2 "a" "u2"

/-- Scenario: room `"a"` is occupied by `u2` while a reclamation timer
armed by an earlier emptying is still pending. -/
def c2Room : MRoom := ⟨"a", [("u2", demoUser "u2")], DrawingState.init, 0⟩

/-- The manager holding `c2Room` plus the stale pending timer. -/
def c2Manager : RoomManagerState := ⟨[("a", c2Room)], ["a"]⟩

-- sanity checks on small inputs
example : (DrawingState.appendAll (DrawingState.init) [1, 2, 3]).getActiveOperations
    = [1, 2, 3] := by decide

example : ((DrawingState.appendAll (DrawingState.init) [1, 2, 3]).undo).1.getActiveOperations
    = [1, 2] := by decide

example : (DrawingState.addOperation ⟨[10, 20], 1, 2⟩ 30).1 = ⟨[20, 30], 1, 2⟩ := by decide

namespace DrawingState

lemma jsSliceTo_of_nonneg (l : List α) (e : Int) (h : 0 ≤ e) :
    jsSliceTo l e = l.take e.toNat := by
  unfold jsSliceTo
  rw [if_neg (by omega)]

lemma wf_init : WF (init : DrawingState α) := by
  constructor <;> simp [init]

lemma wf_addOperation (s : DrawingState α) (op : α) (h : WF s) :
    WF (s.addOperation op).1 := by
  obtain ⟨h1, h2⟩ := h
  unfold addOperation WF
  rw [jsSliceTo_of_nonneg _ _ (by omega)]
  dsimp only
  split
  · dsimp only
    refine ⟨by omega, ?_⟩
    simp only [List.length_drop, List.length_append, List.length_take,
      List.length_singleton]
    omega
  · dsimp only
    refine ⟨by omega, ?_⟩
    simp only [List.length_append, List.length_take, List.length_singleton]
    omega

lemma wf_undo (s : DrawingState α) (h : WF s) : WF s.undo.1 := by
  obtain ⟨h1, h2⟩ := h
  unfold undo WF
  split
  · exact ⟨h1, h2⟩
  · dsimp only
    exact ⟨by omega, by omega⟩

lemma wf_redo (s : DrawingState α) (h : WF s) : WF s.redo.1 := by
  obtain ⟨h1, h2⟩ := h
  unfold redo WF
  split
  · exact ⟨h1, h2⟩
  · dsimp only
    exact ⟨by omega, by omega⟩

lemma wf_clear (s : DrawingState α) : WF s.clear := by
  constructor <;> simp [clear]

/-- Every state reachable through the class's mutators satisfies the
cursor invariant. -/
lemma reachable_wf {s : DrawingState α} (h : Reachable s) : WF s := by
  induction h with
  | init => exact wf_init
  | add op _ ih => exact wf_addOperation _ op ih
  | undo _ ih => exact wf_undo _ ih
  | redo _ ih => exact wf_redo _ ih
  | clear _ _ => exact wf_clear _

lemma atEnd_wf {s : DrawingState α} (h : AtEnd s) : WF s := by
  unfold AtEnd at h
  exact ⟨by omega, by omega⟩

lemma maxOperations_addOperation (s : DrawingState α) (op : α) :
    (s.addOperation op).1.maxOperations = s.maxOperations := by
  unfold addOperation
  dsimp only
  split <;> rfl

lemma addOperation_snd (s : DrawingState α) (op : α) :
    (s.addOperation op).2
      = jsGet (s.addOperation op).1.operations (s.addOperation op).1.currentIndex := by
  unfold addOperation
  dsimp only
  split <;> rfl

lemma slice_atEnd {s : DrawingState α} (h : AtEnd s) :
    jsSliceTo s.operations (s.currentIndex + 1) = s.operations := by
  unfold AtEnd at h
  rw [jsSliceTo_of_nonneg _ _ (by omega)]
  have ht : (s.currentIndex + 1).toNat = s.operations.length := by omega
  rw [ht, List.take_length]

lemma atEnd_active {s : DrawingState α} (h : AtEnd s) :
    s.getActiveOperations = s.operations := by
  unfold getActiveOperations
  exact slice_atEnd h

lemma addOperation_ops_atEnd {s : DrawingState α} (op : α) (h : AtEnd s) :
    (s.addOperation op).1.operations =
      if s.operations.length + 1 > s.maxOperations then (s.operations ++ [op]).drop 1
      else s.operations ++ [op] := by
  unfold addOperation
  rw [slice_atEnd h]
  dsimp only
  simp only [List.length_append, List.length_singleton]
  split <;> rfl

lemma atEnd_addOperation {s : DrawingState α} (op : α) (hwf : WF s) :
    AtEnd (s.addOperation op).1 := by
  obtain ⟨h1, h2⟩ := hwf
  unfold addOperation AtEnd
  rw [jsSliceTo_of_nonneg _ _ (by omega)]
  dsimp only
  split
  · dsimp only
    simp only [List.length_drop, List.length_append, List.length_take,
      List.length_singleton]
    omega
  · dsimp only
    simp only [List.length_append, List.length_take, List.length_singleton]
    omega

lemma atEnd_canRedo {s : DrawingState α} (h : AtEnd s) : s.canRedo = false := by
  unfold AtEnd at h
  unfold canRedo
  simp only [decide_eq_false_iff_not]
  omega

lemma atEnd_redo {s : DrawingState α} (h : AtEnd s) : s.redo = (s, none) := by
  unfold AtEnd at h
  unfold redo
  rw [if_pos (by omega)]

lemma atEnd_appendAll {s : DrawingState α} (l : List α) (h : AtEnd s) :
    AtEnd (appendAll s l) := by
  induction l generalizing s with
  | nil => exact h
  | cons a t ih => exact ih (atEnd_addOperation a (atEnd_wf h))

lemma addOperation_length_atEnd {s : DrawingState α} (op : α) (h : AtEnd s)
    (hle : s.operations.length ≤ s.maxOperations) :
    (s.addOperation op).1.operations.length
      = min (s.operations.length + 1) s.maxOperations := by
  rw [addOperation_ops_atEnd op h]
  split
  · simp only [List.length_drop, List.length_append, List.length_singleton]
    omega
  · simp only [List.length_append, List.length_singleton]
    omega

lemma appendAll_length {s : DrawingState α} (l : List α) (h : AtEnd s)
    (hle : s.operations.length ≤ s.maxOperations) :
    (appendAll s l).operations.length
      = min (s.operations.length + l.length) s.maxOperations := by
  induction l generalizing s with
  | nil =>
    show s.operations.length = min (s.operations.length + 0) s.maxOperations
    omega
  | cons a t ih =>
    have hwf := atEnd_wf h
    have hAE := atEnd_addOperation a hwf
    have hlen := addOperation_length_atEnd a h hle
    have hmax := maxOperations_addOperation s a
    have hle2 : (s.addOperation a).1.operations.length
        ≤ (s.addOperation a).1.maxOperations := by
      rw [hlen, hmax]; omega
    have hstep : (appendAll s (a :: t)).operations.length
        = (appendAll (s.addOperation a).1 t).operations.length := rfl
    rw [hstep, ih hAE hle2, hlen, hmax, List.length_cons]
    omega

lemma appendAll_ops_of_le {s : DrawingState α} (l : List α) (h : AtEnd s)
    (hle : s.operations.length + l.length ≤ s.maxOperations) :
    (appendAll s l).operations = s.operations ++ l := by
  induction l generalizing s with
  | nil => simp [appendAll]
  | cons a t ih =>
    have hlc : s.operations.length + (a :: t).length ≤ s.maxOperations := hle
    simp only [List.length_cons] at hlc
    have hops : (s.addOperation a).1.operations = s.operations ++ [a] := by
      rw [addOperation_ops_atEnd a h, if_neg (by omega)]
    have hAE := atEnd_addOperation a (atEnd_wf h)
    have hstep : appendAll s (a :: t) = appendAll (s.addOperation a).1 t := rfl
    have hle2 : (s.addOperation a).1.operations.length + t.length
        ≤ (s.addOperation a).1.maxOperations := by
      rw [hops, maxOperations_addOperation]
      simp only [List.length_append, List.length_singleton]
      omega
    rw [hstep, ih hAE hle2, hops]
    simp [List.append_assoc]

lemma atEnd_init : AtEnd (init : DrawingState α) := by
  unfold AtEnd init
  simp

/-! ### Claim theorems about `DrawingState` -/

/-- C3 (counterexample): the claim "for every sequence of `addOperation`
calls on a freshly created log, `getActiveOperations()` afterwards
equals the entire appended sequence" is false: appending 1001 operations
to a fresh log (whose `maxOperations` is 1000) evicts the oldest entry,
so the active list is not the full appended sequence. -/
theorem appendAll_beyond_cap_counterexample :
    ¬ (appendAll (init : DrawingState Nat) (List.replicate 1001 0)).getActiveOperations
        = List.replicate 1001 0 := by
  intro heq
  have h0 : AtEnd (init : DrawingState Nat) := atEnd_init
  have hAE := atEnd_appendAll (List.replicate 1001 0) h0
  rw [atEnd_active hAE] at heq
  have hlen := appendAll_length (s := (init : DrawingState Nat))
    (List.replicate 1001 0) h0 (by simp [init])
  have hcl := congrArg List.length heq
  rw [hlen] at hcl
  have e1 : (init : DrawingState Nat).operations.length = 0 := rfl
  have e2 : (init : DrawingState Nat).maxOperations = 1000 := rfl
  rw [e1, e2, List.length_replicate] at hcl
  omega

/-- C3 (amended): for every sequence of `addOperation` calls on a
freshly created log with no intervening undo/redo/clear, and whose
length does not exceed the log's `maxOperations` cap (1000 on a fresh
log), `getActiveOperations()` afterwards equals the entire appended
sequence in call order. -/
theorem appendAll_active_eq_of_le_cap {α : Type} (l : List α)
    (hl : l.length ≤ (init : DrawingState α).maxOperations) :
    (appendAll (init : DrawingState α) l).getActiveOperations = l := by
  have h0 : AtEnd (init : DrawingState α) := atEnd_init
  rw [atEnd_active (atEnd_appendAll l h0),
    appendAll_ops_of_le l h0 (by simpa [init] using hl)]
  simp [init]

/-- Witness for `appendAll_active_eq_of_le_cap` at `l = [1, 2, 3]`. -/
theorem appendAll_active_eq_of_le_cap_witness :
    (appendAll (init : DrawingState Nat) [1, 2, 3]).getActiveOperations = [1, 2, 3] :=
  appendAll_active_eq_of_le_cap [1, 2, 3] (by decide)

/-- C4: on a log that is exactly at capacity with the cursor on the last
entry, one more append keeps the length at `maxOperations`, drops
exactly the oldest entry, leaves the cursor denoting the newly appended
operation (the last entry), makes the active list the previous active
list minus its head plus the new operation, and returns the operation
just appended. -/
theorem append_at_cap_evicts_oldest {α : Type} (s : DrawingState α) (op : α)
    (hlen : s.operations.length = s.maxOperations)
    (hcur : s.currentIndex = (s.operations.length : Int) - 1)
    (hpos : 0 < s.maxOperations) :
    (s.addOperation op).1.operations.length = s.maxOperations ∧
    (s.addOperation op).1.operations = s.operations.drop 1 ++ [op] ∧
    (s.addOperation op).1.currentIndex
      = ((s.addOperation op).1.operations.length : Int) - 1 ∧
    jsGet (s.addOperation op).1.operations (s.addOperation op).1.currentIndex
      = some op ∧
    (s.addOperation op).1.getActiveOperations
      = s.getActiveOperations.drop 1 ++ [op] ∧
    (s.addOperation op).2 = some op := by
  have hAE : AtEnd s := hcur
  have hops : (s.addOperation op).1.operations = (s.operations ++ [op]).drop 1 := by
    rw [addOperation_ops_atEnd op hAE, if_pos (by omega)]
  have hdrop : (s.operations ++ [op]).drop 1 = s.operations.drop 1 ++ [op] :=
    List.drop_append_of_le_length (by omega)
  have hAE2 : AtEnd (s.addOperation op).1 := atEnd_addOperation op (atEnd_wf hAE)
  have hlen2 : (s.addOperation op).1.operations.length = s.maxOperations := by
    rw [hops]
    simp only [List.length_drop, List.length_append, List.length_singleton]
    omega
  have hget : jsGet (s.addOperation op).1.operations
      (s.addOperation op).1.currentIndex = some op := by
    rw [hAE2]
    unfold jsGet
    rw [if_neg (by rw [hlen2]; omega)]
    have hidx : ((((s.addOperation op).1.operations.length : Int)) - 1).toNat
        = (s.operations.drop 1).length := by
      rw [hlen2]
      simp only [List.length_drop]
      omega
    rw [hidx, hops, hdrop, List.get?_eq_getElem?, List.getElem?_concat_length]
  refine ⟨hlen2, by rw [hops, hdrop], hAE2, hget, ?_, ?_⟩
  · rw [atEnd_active hAE2, hops, hdrop, atEnd_active hAE]
  · rw [addOperation_snd]
    exact hget

/-- Witness for `append_at_cap_evicts_oldest`: a log `[10, 20]` at its
cap of 2 with cursor on the last entry, appending `30`. -/
theorem append_at_cap_evicts_oldest_witness :
    ((⟨[10, 20], 1, 2⟩ : DrawingState Nat).addOperation 30).1.operations.length = 2 ∧
    ((⟨[10, 20], 1, 2⟩ : DrawingState Nat).addOperation 30).1.operations
      = [10, 20].drop 1 ++ [30] ∧
    ((⟨[10, 20], 1, 2⟩ : DrawingState Nat).addOperation 30).1.currentIndex
      = ((((⟨[10, 20], 1, 2⟩ : DrawingState Nat).addOperation 30).1.operations.length : Int)) - 1 ∧
    jsGet ((⟨[10, 20], 1, 2⟩ : DrawingState Nat).addOperation 30).1.operations
      ((⟨[10, 20], 1, 2⟩ : DrawingState Nat).addOperation 30).1.currentIndex = some 30 ∧
    ((⟨[10, 20], 1, 2⟩ : DrawingState Nat).addOperation 30).1.getActiveOperations
      = (⟨[10, 20], 1, 2⟩ : DrawingState Nat).getActiveOperations.drop 1 ++ [30] ∧
    ((⟨[10, 20], 1, 2⟩ : DrawingState Nat).addOperation 30).2 = some 30 :=
  append_at_cap_evicts_oldest (⟨[10, 20], 1, 2⟩ : DrawingState Nat) 30
    (by decide) (by decide) (by decide)

/-- C5: in every reachable log state, `canUndo()` is true exactly when
`undo()` would return a present operation, and `canRedo()` is true
exactly when `redo()` would return a present operation. -/
theorem canUndo_canRedo_agree {α : Type} {s : DrawingState α} (h : Reachable s) :
    (s.canUndo = true ↔ s.undo.2.isSome = true) ∧
    (s.canRedo = true ↔ s.redo.2.isSome = true) := by
  obtain ⟨h1, h2⟩ := reachable_wf h
  constructor
  · by_cases hc : s.currentIndex < 0
    · have hU : s.canUndo = false := by
        unfold canUndo
        simp only [decide_eq_false_iff_not]
        omega
      have hu : s.undo.2 = none := by
        unfold undo
        rw [if_pos hc]
      rw [hU, hu]
      simp
    · have hU : s.canUndo = true := by
        unfold canUndo
        simp only [decide_eq_true_eq]
        omega
      have hu : s.undo.2 = jsGet s.operations s.currentIndex := by
        unfold undo
        rw [if_neg hc]
      have hs : (jsGet s.operations s.currentIndex).isSome = true := by
        unfold jsGet
        rw [if_neg hc]
        simp only [Option.isSome_iff_ne_none, Ne, List.get?_eq_none]
        omega
      rw [hU, hu, hs]
  · by_cases hc : s.currentIndex ≥ (s.operations.length : Int) - 1
    · have hR : s.canRedo = false := by
        unfold canRedo
        simp only [decide_eq_false_iff_not]
        omega
      have hr : s.redo.2 = none := by
        unfold redo
        rw [if_pos hc]
      rw [hR, hr]
      simp
    · have hR : s.canRedo = true := by
        unfold canRedo
        simp only [decide_eq_true_eq]
        omega
      have hr : s.redo.2 = jsGet s.operations (s.currentIndex + 1) := by
        unfold redo
        rw [if_neg hc]
      have hs : (jsGet s.operations (s.currentIndex + 1)).isSome = true := by
        unfold jsGet
        rw [if_neg (by omega)]
        simp only [Option.isSome_iff_ne_none, Ne, List.get?_eq_none]
        omega
      rw [hR, hr, hs]

/-- Witness for `canUndo_canRedo_agree` at the reachable state obtained
by one append to a fresh log. -/
theorem canUndo_canRedo_agree_witness :
    (((init : DrawingState Nat).addOperation 7).1.canUndo = true
        ↔ ((init : DrawingState Nat).addOperation 7).1.undo.2.isSome = true) ∧
    (((init : DrawingState Nat).addOperation 7).1.canRedo = true
        ↔ ((init : DrawingState Nat).addOperation 7).1.redo.2.isSome = true) :=
  canUndo_canRedo_agree (Reachable.add 7 Reachable.init)

/-- C6: on any log state (cursor within the data-model bounds) with
`cursor ≥ 0`, `undo()` followed immediately by `redo()` restores the
whole state — in particular `getActiveOperations()` — and both calls
return the same present operation, the entry at the pre-undo cursor. -/
theorem undo_redo_roundtrip {α : Type} (s : DrawingState α)
    (h0 : 0 ≤ s.currentIndex)
    (h1 : s.currentIndex ≤ (s.operations.length : Int) - 1) :
    s.undo.1.redo.1 = s ∧
    s.undo.1.redo.1.getActiveOperations = s.getActiveOperations ∧
    s.undo.2 = jsGet s.operations s.currentIndex ∧
    s.undo.1.redo.2 = s.undo.2 ∧
    s.undo.2.isSome = true := by
  obtain ⟨ops, i, mx⟩ := s
  simp only at h0 h1
  have hu : (⟨ops, i, mx⟩ : DrawingState α).undo = (⟨ops, i - 1, mx⟩, jsGet ops i) := by
    unfold undo
    rw [if_neg (by simp only; omega)]
  have hr : (⟨ops, i - 1, mx⟩ : DrawingState α).redo = (⟨ops, i, mx⟩, jsGet ops i) := by
    unfold redo
    rw [if_neg (by simp only; omega)]
    simp only [Int.sub_add_cancel]
  have hs : (jsGet ops i).isSome = true := by
    unfold jsGet
    rw [if_neg (by omega)]
    simp only [Option.isSome_iff_ne_none, Ne, List.get?_eq_none]
    omega
  rw [hu]
  dsimp only
  rw [hr]
  exact ⟨rfl, rfl, rfl, rfl, hs⟩

/-- Witness for `undo_redo_roundtrip` at the one-entry log `[5]` with
cursor `0`. -/
theorem undo_redo_roundtrip_witness :
    (⟨[5], 0, 1000⟩ : DrawingState Nat).undo.1.redo.1 = ⟨[5], 0, 1000⟩ ∧
    (⟨[5], 0, 1000⟩ : DrawingState Nat).undo.1.redo.1.getActiveOperations
      = (⟨[5], 0, 1000⟩ : DrawingState Nat).getActiveOperations ∧
    (⟨[5], 0, 1000⟩ : DrawingState Nat).undo.2 = jsGet [5] 0 ∧
    (⟨[5], 0, 1000⟩ : DrawingState Nat).undo.1.redo.2
      = (⟨[5], 0, 1000⟩ : DrawingState Nat).undo.2 ∧
    (⟨[5], 0, 1000⟩ : DrawingState Nat).undo.2.isSome = true :=
  undo_redo_roundtrip (⟨[5], 0, 1000⟩ : DrawingState Nat) (by decide) (by decide)

/-- C7: from any log state (cursor within the data-model lower bound)
with a non-empty redo tail (`cursor < entries.length - 1`), a single
append discards the whole redo tail: after it — and after any further
appends with no intervening undo — `canRedo()` is false and `redo()`
returns absent. -/
theorem append_discards_redo_tail {α : Type} (s : DrawingState α) (op : α)
    (l : List α)
    (hwf : -1 ≤ s.currentIndex)
    (h : s.currentIndex < (s.operations.length : Int) - 1) :
    (appendAll (s.addOperation op).1 l).canRedo = false ∧
    (appendAll (s.addOperation op).1 l).redo.2 = none := by
  have hAE0 : AtEnd (s.addOperation op).1 := atEnd_addOperation op ⟨hwf, by omega⟩
  have hAE := atEnd_appendAll l hAE0
  exact ⟨atEnd_canRedo hAE, by rw [atEnd_redo hAE]⟩

/-- Witness for `append_discards_redo_tail`: log `[1, 2]` with cursor
`0` (entry `2` is a redo tail), appending `3`, then one more append. -/
theorem append_discards_redo_tail_witness :
    (appendAll ((⟨[1, 2], 0, 1000⟩ : DrawingState Nat).addOperation 3).1 [4]).canRedo
      = false ∧
    (appendAll ((⟨[1, 2], 0, 1000⟩ : DrawingState Nat).addOperation 3).1 [4]).redo.2
      = none :=
  append_discards_redo_tail (⟨[1, 2], 0, 1000⟩ : DrawingState Nat) 3 [4]
    (by decide) (by decide)

/-- C8: in every log state reachable from the initial empty log by
`addOperation`, `undo`, `redo` and `clear`, the cursor satisfies
`-1 ≤ currentIndex ≤ operations.length - 1`. -/
theorem reachable_cursor_in_bounds {α : Type} {s : DrawingState α}
    (h : Reachable s) :
    -1 ≤ s.currentIndex ∧ s.currentIndex ≤ (s.operations.length : Int) - 1 :=
  reachable_wf h

/-- Witness for `reachable_cursor_in_bounds` at the reachable state
obtained by one append followed by one undo. -/
theorem reachable_cursor_in_bounds_witness :
    -1 ≤ ((init : DrawingState Nat).addOperation 7).1.undo.1.currentIndex ∧
    ((init : DrawingState Nat).addOperation 7).1.undo.1.currentIndex
      ≤ ((((init : DrawingState Nat).addOperation 7).1.undo.1.operations.length : Int)) - 1 :=
  reachable_cursor_in_bounds (Reachable.undo (Reachable.add 7 Reachable.init))

/-- C10: `undo()` and `redo()` never change the operations sequence or
the `maxOperations` cap; the cursor is the only field they may touch. -/
theorem undo_redo_preserve_operations {α : Type} (s : DrawingState α) :
    s.undo.1.operations = s.operations ∧
    s.undo.1.maxOperations = s.maxOperations ∧
    s.redo.1.operations = s.operations ∧
    s.redo.1.maxOperations = s.maxOperations := by
  unfold undo redo
  refine ⟨?_, ?_, ?_, ?_⟩ <;> split <;> rfl

end DrawingState

/-! ### Claim theorems about the room manager and message dispatch -/

lemma lookupAssoc_setAssoc (l : List (String × β)) (k : String) (v : β) :
    lookupAssoc (setAssoc l k v) k = some v := by
  induction l with
  | nil => simp [setAssoc, lookupAssoc]
  | cons p rest ih =>
    obtain ⟨k0, v0⟩ := p
    unfold setAssoc
    by_cases hk : k0 = k
    · rw [if_pos hk]
      unfold lookupAssoc
      rw [if_pos hk]
    · rw [if_neg hk]
      unfold lookupAssoc
      rw [if_neg hk]
      exact ih

/-- C9: an inbound message on which JSON decoding fails is answered with
a single `error` event on the originating connection only: no event is
routed to any other participant, the manager (rooms and logs) is
untouched, the connection state is unchanged and not closed, and the
handler is total (the `catch` recovers instead of crashing). -/
theorem decode_failure_error_only (env : Env) (conn : ConnState)
    (m : RoomManagerState) :
    handleMessage env conn m none
      = (conn, m, ⟨[Event.error "Failed to process message"], [], false⟩) := rfl

/-- C1 (counterexample): the claim that unjoined intents are dropped
without effect is false.  A `draw` intent on a fresh connection (no join
processed, `userId` null) and a fresh manager creates room `"default"`
and appends an operation to its log, moving the cursor to `0`. -/
theorem unjoined_draw_not_dropped :
    ((handleMessage ⟨0, "u", "op1"⟩ ConnState.initial RoomManagerState.empty
        (some (Intent.draw "stroke"))).2.1.rooms.length = 1) ∧
    ((lookupAssoc (handleMessage ⟨0, "u", "op1"⟩ ConnState.initial
          RoomManagerState.empty (some (Intent.draw "stroke"))).2.1.rooms
        "default").map
          (fun room => (room.drawingState.operations.length,
            room.drawingState.currentIndex))
      = some (1, 0)) := by decide

/-- C1 (amended): only `join` is special-cased in the dispatch; an
intent received while unjoined is handled exactly like a joined one,
against the connection's current `roomId` (`"default"`) with a null
`userId`.  In particular a `draw` while unjoined fetches or creates the
default room and appends the stamped operation to its log, and the
connection stays unjoined. -/
theorem unjoined_draw_appends_to_default (env : Env) (m : RoomManagerState)
    (d : String) :
    handleMessage env ConnState.initial m (some (Intent.draw d))
      = handleDraw env ConnState.initial m d ∧
    (handleMessage env ConnState.initial m (some (Intent.draw d))).1
      = ConnState.initial ∧
    lookupAssoc
        (handleMessage env ConnState.initial m (some (Intent.draw d))).2.1.rooms
        "default"
      = some { (getRoom m "default" env.now).2 with
          drawingState := ((getRoom m "default" env.now).2.drawingState.addOperation
            ⟨"draw", none, d, env.now, env.genOpId⟩).1 } := by
  refine ⟨rfl, rfl, ?_⟩
  show lookupAssoc
      (setAssoc (getRoom m "default" env.now).1.rooms "default"
        ({ (getRoom m "default" env.now).2 with
          drawingState := ((getRoom m "default" env.now).2.drawingState.addOperation
            ⟨"draw", none, d, env.now, env.genOpId⟩).1 })) "default" = _
  rw [lookupAssoc_setAssoc]

/-- C2 (counterexample): the claim that at most one reclamation timer is
pending per room id (re-arming replacing the previous timer) is false:
in `reclaimScenario`, two emptyings of room `"a"` leave two pending
timers for `"a"`, because `removeUser` arms a fresh `setTimeout` each
time and never cancels or replaces one. -/
theorem duplicate_reclamation_timers :
    reclaimScenario.pendingTimers = ["a", "a"] ∧
    ¬ reclaimScenario.pendingTimers.count "a" ≤ 1 := by decide

/-- C2 (amended): each emptying arms an additional timer, so several
timers for one room id can be pending at once; but every timer re-checks
occupancy when it fires, so firing a timer for a room that currently has
a participant leaves the room table unchanged, and a join
(`getRoom`) on an existing room returns that identical room — drawing
history intact — without modifying the manager. -/
theorem rejoined_room_survives_timer (m : RoomManagerState) (roomId : String)
    (r : MRoom) (now : Nat)
    (hr : lookupAssoc m.rooms roomId = some r)
    (hne : r.users ≠ []) :
    (fireTimer m roomId).rooms = m.rooms ∧
    getRoom m roomId now = (m, r) := by
  constructor
  · unfold fireTimer
    dsimp only
    rw [hr]
    dsimp only
    rw [if_neg (by simpa [List.length_eq_zero] using hne)]
  · unfold getRoom
    rw [hr]

/-- Witness for `rejoined_room_survives_timer`: room `"a"` occupied by
`u2` while a stale reclamation timer is pending; the timer fires without
deleting the room, and a join returns the identical room. -/
theorem rejoined_room_survives_timer_witness :
    (fireTimer c2Manager "a").rooms = c2Manager.rooms ∧
    getRoom c2Manager "a" 9 = (c2Manager, c2Room) :=
  rejoined_room_survives_timer c2Manager "a" c2Room 9 (by decide) (by decide)
